import Mathlib

/-!
Verification of the stochastic action-resolution engine of a turn-based
survival game.  The Python sources (survivor.py, zombies.py, utils.py,
game.py, event_resolver.py, combat_engine.py, decision_engine.py,
crafting.py, items.py) are shallowly embedded: Python ints become `Int`,
floats become `Rat` (all arithmetic in the sources is exact decimal or
division by powers of two), dicts become association lists, and the global
random generator becomes an explicit stream of naturals (for integer draws)
threaded through the computation.  Functions that can raise in Python
return `Option`.
-/

namespace MobileApoc

/-! ## Random generator (utils.py)

`random.randint(1, 100)` is modelled by drawing the next value of an
arbitrary stream of naturals and mapping it into `[1, 100]`; the stream and
a cursor make the generator explicit and the theorems quantify over every
possible stream, hence over every possible sequence of rolls. -/

structure Rng where
  stream : Nat → Nat
  cursor : Nat

/-- Draw the next raw value of the stream and advance the cursor. -/
def Rng.next (r : Rng) : Nat × Rng :=
  (r.stream r.cursor, ⟨r.stream, r.cursor + 1⟩)

/-- utils.roll_d100: a uniform integer in [1, 100]. -/
def rollD100 (r : Rng) : Nat × Rng :=
  let (v, r') := r.next
  (v % 100 + 1, r')

/-- utils.chance_check: raises ValueError (here `none`) unless the
percentage is inside [0, 100]; otherwise succeeds iff a d100 roll is at
most the percentage. -/
def chanceCheck (percentage : ℚ) (r : Rng) : Option (Bool × Rng) :=
  if 0 ≤ percentage ∧ percentage ≤ 100 then
    let (v, r') := rollD100 r
    some (decide ((v : ℚ) ≤ percentage), r')
  else
    none

/-! ## Shared resource ledger (game.py)

`Game.global_resources` is a dict from resource name to integer quantity;
we embed it as an association list with unique keys kept in insertion
order, exactly mirroring `add_resource` and `remove_resource`. -/

abbrev Ledger := List (String × Int)

/-- Current quantity of a resource, `dict.get(name, 0)`. -/
def ledgerGet (l : Ledger) (name : String) : Int :=
  (l.lookup name).getD 0

/-- Whether the key is present, `name in dict`. -/
def ledgerHas (l : Ledger) (name : String) : Bool :=
  (l.lookup name).isSome

/-- Overwrite the value stored at the first occurrence of a key. -/
def ledgerSet (l : Ledger) (name : String) (v : Int) : Ledger :=
  match l with
  | [] => []
  | (k, w) :: rest =>
    if k = name then (k, v) :: rest else (k, w) :: ledgerSet rest name v

/-- Game.add_resource: if the key is present add to it, otherwise create
it holding exactly the given quantity. -/
def addResource (l : Ledger) (name : String) (qty : Int) : Ledger :=
  match l.lookup name with
  | some cur => ledgerSet l name (cur + qty)
  | none => l ++ [(name, qty)]

/-- Game.remove_resource: mutate and return True only when the key is
present with at least the requested quantity; otherwise leave the ledger
unchanged and return False. -/
def removeResource (l : Ledger) (name : String) (qty : Int) : Bool × Ledger :=
  match l.lookup name with
  | some cur =>
    if cur ≥ qty then (true, ledgerSet l name (cur - qty)) else (false, l)
  | none => (false, l)

/-- The six resources `Game.__init__` starts with, all at zero. -/
def initialResources : Ledger :=
  [("Food", 0), ("Water", 0), ("Fuel", 0), ("Scrap", 0),
   ("Ammunition", 0), ("ElectronicParts", 0)]

/-! ## Entity model (survivor.py, zombies.py)

A survivor's `attributes` dict is created with exactly the seven keys
STR, AGI, INT, PER, CHR, CON, SAN and no key is ever added or removed, so
it is embedded as a seven-field structure. -/

structure Attrs where
  str : Int
  agi : Int
  int : Int
  per : Int
  chr : Int
  con : Int
  san : Int
deriving DecidableEq

structure SurvivorC where
  name : String
  attrs : Attrs
  skills : List (String × Int)
  traits : List String
  inventory : List (String × Int)
  max_hp : ℚ
  current_hp : ℚ
  max_stress : ℚ
  current_stress : ℚ
  is_alive : Bool
  is_injured : Bool
  is_stressed : Bool
deriving DecidableEq

/-- skills.get(name, 0). -/
def skillGet (s : SurvivorC) (name : String) : Int :=
  (s.skills.lookup name).getD 0

/-- name in skills. -/
def skillHas (s : SurvivorC) (name : String) : Bool :=
  (s.skills.lookup name).isSome

/-- Survivor.__init__: max health is 40 + 10·CON, max stress 40 + 10·SAN,
health starts full, stress at zero, all flags fresh. -/
def mkSurvivor (name : String) (a : Attrs) : SurvivorC :=
  { name := name
    attrs := a
    skills := []
    traits := []
    inventory := []
    max_hp := 40 + (a.con : ℚ) * 10
    current_hp := 40 + (a.con : ℚ) * 10
    max_stress := 40 + (a.san : ℚ) * 10
    current_stress := 0
    is_alive := true
    is_injured := false
    is_stressed := false }

/-- Survivor.take_damage: no-op on a dead survivor; otherwise reduce the
amount by min(CON·5, 50) percent, round the result up, subtract, and
update the is_alive / is_injured flags. -/
def takeDamage (s : SurvivorC) (amount : ℚ) : SurvivorC :=
  if s.is_alive then
    let reduction : ℚ := min ((s.attrs.con : ℚ) * 5) 50
    let actual : ℚ := (Int.ceil (amount * (1 - reduction / 100)) : ℤ)
    let hp := s.current_hp - actual
    if hp ≤ 0 then
      { s with current_hp := 0, is_alive := false, is_injured := true }
    else if hp < s.max_hp * (1 / 2) then
      { s with current_hp := hp, is_injured := true }
    else
      { s with current_hp := hp, is_injured := false }
  else s

/-- Survivor.gain_stress: no-op on a dead survivor; otherwise mitigate by
min(SAN·5, 50) percent, round up, add, cap at max stress and update the
is_stressed flag. -/
def gainStress (s : SurvivorC) (amount : ℚ) : SurvivorC :=
  if s.is_alive then
    let mitigation : ℚ := min ((s.attrs.san : ℚ) * 5) 50
    let actual : ℚ := (Int.ceil (amount * (1 - mitigation / 100)) : ℤ)
    let st := s.current_stress + actual
    if st > s.max_stress then
      { s with current_stress := s.max_stress, is_stressed := true }
    else if st > s.max_stress * (3 / 4) then
      { s with current_stress := st, is_stressed := true }
    else
      { s with current_stress := st, is_stressed := false }
  else s

/-- Survivor.reduce_stress: no-op on a dead survivor; otherwise subtract,
floor at zero, and clear the is_stressed flag when at or below 75% of the
maximum. -/
def reduceStress (s : SurvivorC) (amount : ℚ) : SurvivorC :=
  if s.is_alive then
    let st0 := s.current_stress - amount
    let st := if st0 < 0 then 0 else st0
    if st ≤ s.max_stress * (3 / 4) then
      { s with current_stress := st, is_stressed := false }
    else
      { s with current_stress := st }
  else s

/-- Survivor.heal: no-op on a dead survivor; otherwise add, cap at max
health, and clear the is_injured flag when at or above half the maximum. -/
def heal (s : SurvivorC) (amount : ℚ) : SurvivorC :=
  if s.is_alive then
    let hp0 := s.current_hp + amount
    let hp := if hp0 > s.max_hp then s.max_hp else hp0
    if hp ≥ s.max_hp * (1 / 2) then
      { s with current_hp := hp, is_injured := false }
    else
      { s with current_hp := hp }
  else s

structure ZombieC where
  id : String
  name : String
  base_hp : Int
  current_hp : Int
  damage : Int
  speed : Int
  defense : Int
  traits : List String
  is_alive : Bool
deriving DecidableEq

/-- Zombie.take_damage: subtract the amount unconditionally (there is no
liveness guard); at or below zero the zombie is floored to zero health and
marked dead. -/
def zombieTakeDamage (z : ZombieC) (amount : Int) : ZombieC :=
  let hp := z.current_hp - amount
  if hp ≤ 0 then
    { z with current_hp := 0, is_alive := false }
  else
    { z with current_hp := hp }

/-! ## Outcome tier classification (event_resolver.py 75-79,
decision_engine.py 132-159)

Both resolvers share verbatim the same three lines: success iff the roll
is at most the chance, critical success iff successful and the roll is at
least 95, critical failure iff unsuccessful and the roll is at most 5. -/

def CRITICAL_SUCCESS_THRESHOLD : Nat := 95
def CRITICAL_FAILURE_THRESHOLD : Nat := 5

def isSuccessful (chance : ℚ) (roll : Nat) : Bool :=
  decide ((roll : ℚ) ≤ chance)

def isCriticalSuccess (chance : ℚ) (roll : Nat) : Bool :=
  isSuccessful chance roll && decide (roll ≥ CRITICAL_SUCCESS_THRESHOLD)

def isCriticalFailure (chance : ℚ) (roll : Nat) : Bool :=
  !isSuccessful chance roll && decide (roll ≤ CRITICAL_FAILURE_THRESHOLD)

/-- The four-way if/elif chain of make_decision, which selects the string
tier from the three shared booleans. -/
def outcomeType (chance : ℚ) (roll : Nat) : String :=
  if isCriticalSuccess chance roll then "critical_success"
  else if isSuccessful chance roll then "success"
  else if isCriticalFailure chance roll then "critical_failure"
  else "failure"

/-! ## Probability calculator (event_resolver.py 16-59) -/

def BASE_SUCCESS_CHANCE : ℚ := 50
def SKILL_BONUS_PER_LEVEL : ℚ := 5
def ATTRIBUTE_BONUS_PER_POINT : ℚ := 2

/-- Action descriptors (Quest / BaseJob): only the fields the resolver
reads. -/
structure ActionObj where
  name : String
  recommended_skills : List (String × Int)
  danger_rating : Int
  rewards : List (String × Int)
  fail_consequences : List (String × Int)
deriving DecidableEq

def recommendedHas (rec : List (String × Int)) (name : String) : Bool :=
  (rec.lookup name).isSome

/-- Per-survivor skill bonus accumulation of
calculate_action_success_chance: every recommended skill the survivor has
contributes its level times the per-level bonus. -/
def survivorSkillBonus (rec : List (String × Int)) (s : SurvivorC) : ℚ :=
  rec.foldl
    (fun acc entry =>
      if skillHas s entry.1 then
        acc + (skillGet s entry.1 : ℚ) * SKILL_BONUS_PER_LEVEL
      else acc)
    0

/-- Per-survivor attribute bonus of calculate_action_success_chance: a
fixed lookup keyed off which skill names are recommended. -/
def survivorAttributeBonus (rec : List (String × Int)) (s : SurvivorC) : ℚ :=
  (if recommendedHas rec "Perception" || recommendedHas rec "Scouting" then
    (s.attrs.per : ℚ) * ATTRIBUTE_BONUS_PER_POINT
  else 0)
  + (if recommendedHas rec "Small Arms" || recommendedHas rec "Melee Weaponry" then
    ((s.attrs.agi : ℚ) + (s.attrs.str : ℚ)) / 2 * ATTRIBUTE_BONUS_PER_POINT
  else 0)
  + (if recommendedHas rec "Mechanics" || recommendedHas rec "Electronics" then
    (s.attrs.int : ℚ) * ATTRIBUTE_BONUS_PER_POINT
  else 0)

/-- calculate_action_success_chance: base 50 plus all per-survivor skill
and attribute bonuses minus 5 per point of danger, clamped to [0, 100]. -/
def calculateActionSuccessChance (survivors : List SurvivorC)
    (action : ActionObj) (action_type : String)
    (node_danger_modifier : Int) : ℚ :=
  let recommended := if action_type = "quest" then action.recommended_skills
    else if action_type = "base_job" then action.recommended_skills
    else []
  let total_skill_bonus :=
    survivors.foldl (fun acc s => acc + survivorSkillBonus recommended s) 0
  let total_attribute_bonus :=
    survivors.foldl (fun acc s => acc + survivorAttributeBonus recommended s) 0
  let danger_penalty : ℚ := (node_danger_modifier : ℚ) * 5
  let final_chance :=
    BASE_SUCCESS_CHANCE + total_skill_bonus + total_attribute_bonus - danger_penalty
  max 0 (min 100 final_chance)

/-! ## Combat hit chances (combat_engine.py 47-82) -/

def SURVIVOR_BASE_HIT_CHANCE : ℚ := 70
def ZOMBIE_BASE_HIT_CHANCE : ℚ := 50
def SKILL_HIT_BONUS_PER_LEVEL : ℚ := 5
def ATTRIBUTE_HIT_BONUS_PER_POINT : ℚ := 2

abbrev EnvMods := List (String × Bool)

def envGet (env : EnvMods) (name : String) : Bool :=
  (env.lookup name).getD false

/-- calculate_survivor_hit_chance. -/
def calculateSurvivorHitChance (attacker : SurvivorC) (target : ZombieC)
    (env : EnvMods) : ℚ :=
  let c0 := SURVIVOR_BASE_HIT_CHANCE
  let c1 :=
    if skillGet attacker "Small Arms" > 0 then
      c0 + (skillGet attacker "Small Arms" : ℚ) * SKILL_HIT_BONUS_PER_LEVEL
         + (attacker.attrs.agi : ℚ) * ATTRIBUTE_HIT_BONUS_PER_POINT
    else if skillGet attacker "Melee Weaponry" > 0 then
      c0 + (skillGet attacker "Melee Weaponry" : ℚ) * SKILL_HIT_BONUS_PER_LEVEL
         + (attacker.attrs.str : ℚ) * ATTRIBUTE_HIT_BONUS_PER_POINT
    else
      c0 + ((attacker.attrs.agi : ℚ) + (attacker.attrs.str : ℚ)) / 2
         * (ATTRIBUTE_HIT_BONUS_PER_POINT / 2)
  let c2 := c1 - (target.defense : ℚ) * (1 / 2)
  let c3 := if envGet env "Fog" then c2 - 15 else c2
  max 0 (min 100 c3)

/-- calculate_zombie_hit_chance. -/
def calculateZombieHitChance (_attacker : ZombieC) (target : SurvivorC)
    (env : EnvMods) : ℚ :=
  let c0 := ZOMBIE_BASE_HIT_CHANCE
  let c1 := c0 - (target.attrs.agi : ℚ) * 2
  let c2 :=
    if envGet env "Fog" && decide (skillGet target "Stealth" > 0) then c1 - 20
    else c1
  max 0 (min 100 c2)

/-! ## Decision engine choice chance (decision_engine.py 32-60) -/

/-- Choice prerequisites: the optional "skill" and "attribute" blocks of
the prerequisites dict.  Attribute keys are the seven attribute names,
embedded as accessors of `Attrs`. -/
inductive AttrName
  | STR | AGI | INT | PER | CHR | CON | SAN
deriving DecidableEq

def attrVal (a : Attrs) : AttrName → Int
  | .STR => a.str
  | .AGI => a.agi
  | .INT => a.int
  | .PER => a.per
  | .CHR => a.chr
  | .CON => a.con
  | .SAN => a.san

structure ChoiceC where
  text : String
  description : String
  base_success_chance : ℚ
  effects_on_success : List (String × Int)
  effects_on_failure : List (String × Int)
  prereq_skill : Option (List (String × Int))
  prereq_attribute : Option (List (AttrName × Int))
deriving DecidableEq

/-- The per-survivor skill part of calculate_choice_specific_chance: for
every skill prerequisite entry the survivor has at at least the required
level, add (level - required + 1) · 5 to the running chance. -/
def choiceSkillFold (s : SurvivorC) (entries : List (String × Int)) (acc : ℚ) : ℚ :=
  entries.foldl
    (fun acc entry =>
      if skillHas s entry.1 ∧ skillGet s entry.1 ≥ entry.2 then
        acc + ((skillGet s entry.1 : ℚ) - (entry.2 : ℚ) + 1) * 5
      else acc)
    acc

/-- The per-survivor attribute part of calculate_choice_specific_chance:
for every attribute prerequisite entry the survivor meets, add
(value - required + 1) · 2. -/
def choiceAttrFold (s : SurvivorC) (entries : List (AttrName × Int)) (acc : ℚ) : ℚ :=
  entries.foldl
    (fun acc entry =>
      if attrVal s.attrs entry.1 ≥ entry.2 then
        acc + ((attrVal s.attrs entry.1 : ℚ) - (entry.2 : ℚ) + 1) * 2
      else acc)
    acc

/-- calculate_choice_specific_chance: start from the choice's base chance,
accumulate the skill then attribute bonuses survivor by survivor, clamp to
[0, 100]. -/
def calculateChoiceSpecificChance (choice : ChoiceC)
    (survivors : List SurvivorC) : ℚ :=
  let final := survivors.foldl
    (fun acc s =>
      let acc1 := match choice.prereq_skill with
        | some entries => choiceSkillFold s entries acc
        | none => acc
      match choice.prereq_attribute with
        | some entries => choiceAttrFold s entries acc1
        | none => acc1)
    choice.base_success_chance
  max 0 (min 100 final)

/-- The Constitution-7 survivor of the numeric scenario: max health 110,
at full health.  -/
def scenarioSurvivor : SurvivorC :=
  mkSurvivor "Scenario" ⟨5, 5, 5, 5, 5, 7, 5⟩

/-! ## Dead-actor inertness (survivor.py 58-124, zombies.py 30-38)

All four Survivor mutators start with a liveness guard, so a dead
survivor is left untouched by any amount.  Zombie.take_damage has no such
guard: it relies on a dead zombie's health already being zero, which only
holds for non-negative amounts. -/

/-- A dead zombie in its canonical state (health floored to zero by a
prior lethal take_damage call). -/
def deadZombie : ZombieC :=
  { id := "shambler_instance_1", name := "Shambler", base_hp := 30,
    current_hp := 0, damage := 10, speed := 1, defense := 5, traits := [],
    is_alive := false }

/-- A dead survivor in its canonical state. -/
def deadSurvivor : SurvivorC :=
  { mkSurvivor "Casualty" ⟨1, 1, 1, 1, 1, 1, 1⟩ with
    current_hp := 0, is_alive := false, is_injured := true }

/-! ## Ledger non-negativity (game.py 46-63) -/

inductive LedgerOp
  | add (name : String) (qty : Int)
  | remove (name : String) (qty : Int)
deriving DecidableEq

/-- Run one call against the ledger (the Bool result of remove_resource is
discarded here; it is studied separately). -/
def applyOp (l : Ledger) : LedgerOp → Ledger
  | .add name qty => addResource l name qty
  | .remove name qty => (removeResource l name qty).2

/-- Run a whole sequence of add_resource / remove_resource calls. -/
def applyOps (ops : List LedgerOp) (l : Ledger) : Ledger :=
  ops.foldl applyOp l

/-- Every entry of the ledger is non-negative. -/
def LedgerNonneg (l : Ledger) : Prop := ∀ p ∈ l, 0 ≤ p.2

instance (l : Ledger) : Decidable (LedgerNonneg l) := by
  unfold LedgerNonneg; infer_instance

/-- The per-entry skill addition of calculate_choice_specific_chance as a
summand. -/
def skillEntryBonus (s : SurvivorC) (entry : String × Int) : ℚ :=
  if skillHas s entry.1 ∧ skillGet s entry.1 ≥ entry.2 then
    ((skillGet s entry.1 : ℚ) - (entry.2 : ℚ) + 1) * 5
  else 0

/-- The per-entry attribute addition of calculate_choice_specific_chance
as a summand. -/
def attrEntryBonus (s : SurvivorC) (entry : AttrName × Int) : ℚ :=
  if attrVal s.attrs entry.1 ≥ entry.2 then
    ((attrVal s.attrs entry.1 : ℚ) - (entry.2 : ℚ) + 1) * 2
  else 0

/-- The whole bonus a single participant contributes. -/
def survivorChoiceBonus (choice : ChoiceC) (s : SurvivorC) : ℚ :=
  (match choice.prereq_skill with
   | some entries => (entries.map (skillEntryBonus s)).sum
   | none => 0)
  + (match choice.prereq_attribute with
     | some entries => (entries.map (attrEntryBonus s)).sum
     | none => 0)

/-- The per-choice chance as the amended claim states it: the base
percentage plus, for every participant and every prerequisite entry the
participant meets, (level - threshold + 1) · 5 percent for a skill entry
and (value - threshold + 1) · 2 percent for an attribute entry — i.e. a
flat 5 (resp. 2) percent for meeting the threshold plus 5 (resp. 2)
percent per level (resp. point) above it — clamped to [0, 100]. -/
def choiceChanceAmended (choice : ChoiceC) (survivors : List SurvivorC) : ℚ :=
  max 0 (min 100 (choice.base_success_chance
    + (survivors.map (survivorChoiceBonus choice)).sum))

/-- Modelled from the spec: the per-choice chance exactly as the original
claim words it — 5 percent per level strictly above the skill threshold
and 2 percent per point strictly above the attribute threshold, with a
participant exactly at a threshold contributing nothing — clamped to
[0, 100]. -/
def choiceChanceClaim (choice : ChoiceC) (survivors : List SurvivorC) : ℚ :=
  let perSurvivor := fun (s : SurvivorC) =>
    (match choice.prereq_skill with
     | some entries => (entries.map (fun e =>
        if skillGet s e.1 > e.2 then ((skillGet s e.1 : ℚ) - (e.2 : ℚ)) * 5
        else 0)).sum
     | none => 0)
    + (match choice.prereq_attribute with
       | some entries => (entries.map (fun e =>
          if attrVal s.attrs e.1 > e.2 then
            ((attrVal s.attrs e.1 : ℚ) - (e.2 : ℚ)) * 2
          else 0)).sum
       | none => 0)
  max 0 (min 100 (choice.base_success_chance
    + (survivors.map perSurvivor).sum))

/-- The choice of the C5 counterexample: base 50, one skill prerequisite
at level 2, no attribute prerequisites. -/
def counterChoice : ChoiceC :=
  { text := "Scout ahead", description := "Check the area.",
    base_success_chance := 50, effects_on_success := [],
    effects_on_failure := [], prereq_skill := some [("Scouting", 2)],
    prereq_attribute := none }

/-- The participant of the C5 counterexample: Scouting at exactly the
threshold level 2. -/
def counterScout : SurvivorC :=
  { mkSurvivor "Scout" ⟨5, 5, 5, 5, 5, 5, 5⟩ with skills := [("Scouting", 2)] }

/-! ## Crafting (crafting.py, items.py)

crafting.py draws floats from rng.random(); those draws are modelled by a
stream of rationals (a value in [0, 1) per draw). -/

structure RngQ where
  stream : Nat → ℚ
  cursor : Nat

def RngQ.next (r : RngQ) : ℚ × RngQ :=
  (r.stream r.cursor, ⟨r.stream, r.cursor + 1⟩)

structure Recipe where
  requires : List (String × Int)
  produces_item : Option String
  produces_resource : Option String
  produces_quantity : Option Int
  base_success_chance : Option ℚ
deriving DecidableEq

/-- The RECIPES table of items.py, in Python insertion order (the trailing
registration block always runs, and "Ammunition" aliases the "Ammo"
recipe). -/
def RECIPES : List (String × Recipe) :=
  [("Medkit",
    { requires := [("Scrap", 5), ("ElectronicParts", 2)],
      produces_item := some "Medkit", produces_resource := none,
      produces_quantity := some 1, base_success_chance := none }),
   ("Bandage",
    { requires := [("Scrap", 1)],
      produces_item := some "Bandage", produces_resource := none,
      produces_quantity := some 1, base_success_chance := none }),
   ("Ammo",
    { requires := [("Scrap", 3)],
      produces_item := none, produces_resource := some "Ammunition",
      produces_quantity := some 5, base_success_chance := none }),
   ("AdvancedMedkit",
    { requires := [("Scrap", 8), ("ElectronicParts", 4)],
      produces_item := some "Medkit", produces_resource := none,
      produces_quantity := some 2, base_success_chance := none }),
   ("RepairKit",
    { requires := [("Scrap", 6), ("ElectronicParts", 1)],
      produces_item := some "RepairKit", produces_resource := none,
      produces_quantity := some 1, base_success_chance := none }),
   ("Ammunition",
    { requires := [("Scrap", 3)],
      produces_item := none, produces_resource := some "Ammunition",
      produces_quantity := some 5, base_success_chance := none }),
   ("Pistol",
    { requires := [("Scrap", 10), ("ElectronicParts", 4)],
      produces_item := some "Pistol", produces_resource := none,
      produces_quantity := some 1, base_success_chance := some (4 / 5) }),
   ("AmmoBulk",
    { requires := [("Scrap", 10)],
      produces_item := none, produces_resource := some "Ammunition",
      produces_quantity := some 25, base_success_chance := some (19 / 20) })]

/-- Recipe lookup of craft_item: direct key first, then the first recipe
whose produced resource or item matches the id (Python dict iteration
order = insertion order). -/
def lookupRecipe (recipes : List (String × Recipe)) (recipe_id : String) :
    Option Recipe :=
  match recipes.lookup recipe_id with
  | some r => some r
  | none =>
    (recipes.find? (fun p =>
      p.2.produces_resource == some recipe_id ||
      p.2.produces_item == some recipe_id)).map Prod.snd

/-- Mechanics level of the optional crafter. -/
def craftMechLevel (survivor : Option SurvivorC) : Int :=
  match survivor with
  | some s => skillGet s "Mechanics"
  | none => 0

/-- The skill-reduced requirement map: each base requirement reduced by
the Mechanics level (floored at 0) and scaled by the quantity. -/
def craftRequired (recipe : Recipe) (mech_level quantity : Int) :
    List (String × Int) :=
  recipe.requires.map (fun p => (p.1, max 0 (p.2 - mech_level) * quantity))

/-- The success chance: base (default 0.9) plus 0.03 per Mechanics level,
capped at 0.99. -/
def craftSuccessChance (recipe : Recipe) (mech_level : Int) : ℚ :=
  min (99 / 100) (recipe.base_success_chance.getD (9 / 10)
    + (3 / 100) * (mech_level : ℚ))

/-- The consume loop of craft_item: remove each positive required amount
from the ledger and record it in the consumed map. -/
def consumeStep (acc : Ledger × List (String × Int)) (p : String × Int) :
    Ledger × List (String × Int) :=
  if p.2 > 0 then ((removeResource acc.1 p.1 p.2).2, acc.2 ++ [p]) else acc

/-- Survivor.add_item_to_inventory: raises (none) for a quantity below 1,
otherwise adds to the survivor's individual inventory. -/
def addItemToInventory (s : SurvivorC) (item : String) (qty : Int) :
    Option SurvivorC :=
  if qty < 1 then none
  else some { s with inventory := addResource s.inventory item qty }

structure CraftResult where
  success : Bool
  produced_qty : Int
  consumed : List (String × Int)
deriving DecidableEq

/-- craft_item: look the recipe up, apply the Mechanics reduction, check
availability, debit the ledger, roll for success (and, only on success,
for a critical), and apply the production.  Returns the result record
together with the final ledger, the possibly-updated crafter and the
advanced generator; `none` models the ValueError add_item_to_inventory
raises on a sub-1 produced quantity. -/
def craftItem (recipes : List (String × Recipe)) (ledger : Ledger)
    (recipe_id : String) (quantity : Int) (survivor : Option SurvivorC)
    (rng : RngQ) :
    Option (CraftResult × Ledger × Option SurvivorC × RngQ) :=
  match lookupRecipe recipes recipe_id with
  | none =>
    some ({ success := false, produced_qty := 0, consumed := [] },
      ledger, survivor, rng)
  | some recipe =>
    let mech_level := craftMechLevel survivor
    let required := craftRequired recipe mech_level quantity
    if required.all (fun p => decide (ledgerGet ledger p.1 ≥ p.2)) then
      let folded := required.foldl consumeStep (ledger, [])
      let ledger1 := folded.1
      let consumed := folded.2
      let produced_qty := match recipe.produces_quantity with
        | some q => q * quantity + mech_level
        | none => 1 * quantity + mech_level
      let success_chance := craftSuccessChance recipe mech_level
      let (roll, rng1) := rng.next
      let is_success := decide (roll ≤ success_chance)
      let crit_chance := min (1 / 2 : ℚ) (5 / 100 + (2 / 100) * (mech_level : ℚ))
      let rolled := if is_success then
          let (roll2, rng2) := rng1.next
          (decide (roll2 ≤ crit_chance), rng2)
        else (false, rng1)
      let is_critical := rolled.1
      let rng2 := rolled.2
      if is_success then
        let final_qty := if is_critical then produced_qty * 2 else produced_qty
        match recipe.produces_item with
        | some item_id =>
          match survivor with
          | some s =>
            (addItemToInventory s item_id final_qty).map (fun s' =>
              ({ success := true, produced_qty := final_qty, consumed := consumed },
                ledger1, some s', rng2))
          | none =>
            some ({ success := true, produced_qty := final_qty, consumed := consumed },
              addResource ledger1 item_id final_qty, none, rng2)
        | none =>
          match recipe.produces_resource with
          | some res_name =>
            some ({ success := true, produced_qty := final_qty, consumed := consumed },
              addResource ledger1 res_name final_qty, survivor, rng2)
          | none =>
            some ({ success := true, produced_qty := final_qty, consumed := consumed },
              ledger1, survivor, rng2)
      else
        some ({ success := false, produced_qty := 0, consumed := consumed },
          ledger1, survivor, rng2)
    else
      some ({ success := false, produced_qty := 0, consumed := [] },
        ledger, survivor, rng)

/-! ## Crafted-reward handling of the resolver (event_resolver.py 91-110)

Python's `res.replace("_crafted", "")` and `res.endswith("_crafted")` are
embedded as structural functions on the character list: remove every
non-overlapping occurrence left to right / test the suffix. -/

def craftedSuffix : List Char := "_crafted".toList

/-- Remove every occurrence of the pattern, scanning left to right; the
fuel argument (instantiated with the string length) only serves
structural termination and is never exhausted. -/
def stripAux (pat : List Char) : Nat → List Char → List Char
  | 0, cs => cs
  | _ + 1, [] => []
  | fuel + 1, c :: rest =>
    if pat.isPrefixOf (c :: rest) then
      stripAux pat fuel (List.drop pat.length (c :: rest))
    else c :: stripAux pat fuel rest

/-- Python `res.replace("_crafted", "")`. -/
def stripCrafted (s : String) : String :=
  ⟨stripAux craftedSuffix s.toList.length s.toList⟩

/-- Python `res.endswith("_crafted")`. -/
def endsWithCrafted (s : String) : Bool :=
  craftedSuffix.isSuffixOf s.toList

/-- The reward-application of resolve_action on a success, for one reward
entry: "Experience" only logs, a key ending in "_crafted" adds the
stripped item name directly to the shared resources (doubled on critical
success), anything else is added as a raw resource (doubled on critical
success). -/
def applyReward (ledger : Ledger) (res : String) (qty : Int)
    (is_critical_success : Bool) : Ledger :=
  if res = "Experience" then ledger
  else if endsWithCrafted res then
    addResource ledger (stripCrafted res)
      (qty * (if is_critical_success then 2 else 1))
  else
    addResource ledger res (qty * (if is_critical_success then 2 else 1))

/-- All reward entries of a successful resolution, in order. -/
def applyRewards (ledger : Ledger) (rewards : List (String × Int))
    (is_critical_success : Bool) : Ledger :=
  rewards.foldl (fun l p => applyReward l p.1 p.2 is_critical_success) ledger

/-- Modelled from the spec: the crafted-reward path as the claim words
it — the resolver invokes the crafting primitive on the stripped item
name so that the recipe's required resources are actually consumed and
the item produced, and grants the raw resource directly only as a
fallback when crafting's resource check (recipe known and required
resources available) fails. -/
def applyCraftedRewardClaim (ledger : Ledger) (res : String) (qty : Int)
    (is_critical_success : Bool) (rng : RngQ) : Ledger :=
  let item_name := stripCrafted res
  let m := qty * (if is_critical_success then 2 else 1)
  match lookupRecipe RECIPES item_name with
  | none => addResource ledger item_name m
  | some recipe =>
    let required := craftRequired recipe 0 m
    if required.all (fun p => decide (ledgerGet ledger p.1 ≥ p.2)) then
      match craftItem RECIPES ledger item_name m none rng with
      | some (_, ledger1, _, _) => ledger1
      | none => ledger
    else addResource ledger item_name m

/-! ## Injury-chance consequence of the resolver (event_resolver.py
121-126) -/

/-- One participant's independent injury check: chance_check at the
(possibly doubled) value; a passing check sets the injured flag.  The
whole loop propagates chance_check's ValueError as `none`. -/
def applyInjuryGo (v : ℚ) : List SurvivorC → Rng →
    Option (List SurvivorC × Rng)
  | [], r => some ([], r)
  | s :: rest, r =>
    (chanceCheck v r).bind (fun br =>
      (applyInjuryGo v rest br.2).map (fun out =>
        ((if br.1 then { s with is_injured := true } else s) :: out.1, out.2)))

/-- The Injury_chance consequence branch of resolve_action: only runs for
a positive value; each participant gets an independent check at the value
doubled on critical failure. -/
def applyInjury (survivors : List SurvivorC) (value : ℚ)
    (is_critical_failure : Bool) (r : Rng) : Option (List SurvivorC × Rng) :=
  if value > 0 then
    applyInjuryGo (value * (if is_critical_failure then 2 else 1)) survivors r
  else
    some (survivors, r)

/-- The explicit description of the injury loop when no error occurs: the
participant at offset i is flagged as injured iff the i-th d100 roll is at
most the chance value. -/
def injuryMap (v : ℚ) (stream : Nat → Nat) (k : Nat) :
    List SurvivorC → List SurvivorC
  | [] => []
  | s :: rest =>
    (if ((stream k % 100 + 1 : Nat) : ℚ) ≤ v then { s with is_injured := true }
     else s) :: injuryMap v stream (k + 1) rest

/-! ## Combat simulator (combat_engine.py 85-204)

random.shuffle is embedded as a draw-based permutation (repeatedly pick a
uniform index among the remaining elements); random.choice picks a
uniform index of the current list.  Both consume one draw of the integer
stream per selection, so the theorems quantify over every possible
behaviour of the generator. -/

def ZOMBIE_HP_PER_DANGER_LEVEL : Int := 10

/-- get_combat_stats weapon_damage placeholder: 10 + 2·STR. -/
def weaponDamage (s : SurvivorC) : Int := 10 + s.attrs.str * 2

/-- Draw-based uniform permutation; the fuel argument (instantiated with
the list length) serves structural termination only. -/
def shuffleAux {α : Type} : Nat → List α → Rng → List α × Rng
  | 0, l, r => (l, r)
  | fuel + 1, l, r =>
    if h : l.length = 0 then (l, r)
    else
      let v := (Rng.next r).1
      let r1 := (Rng.next r).2
      let i := v % l.length
      have hi : i < l.length := Nat.mod_lt v (Nat.pos_of_ne_zero h)
      let x := l.get ⟨i, hi⟩
      let rest := shuffleAux fuel (l.eraseIdx i) r1
      (x :: rest.1, rest.2)

/-- random.shuffle of a whole list. -/
def shuffleList {α : Type} (l : List α) (r : Rng) : List α × Rng :=
  shuffleAux l.length l r

/-- One survivor's attack during the survivor phase: skip if the attacker
is dead or no zombies remain; otherwise pick a uniform target, roll
against the hit chance, on a hit roll the 10% critical doubling, damage
the target and remove it immediately when it dies. -/
def attackStepS (env : EnvMods) (st : List ZombieC × Rng) (a : SurvivorC) :
    Option (List ZombieC × Rng) :=
  let zs := st.1
  let r := st.2
  if h : a.is_alive = false ∨ zs = [] then some (zs, r)
  else
    have hz : zs ≠ [] := fun he => h (Or.inr he)
    let v := (Rng.next r).1
    let r1 := (Rng.next r).2
    let i := v % zs.length
    have hi : i < zs.length := Nat.mod_lt v (List.length_pos.mpr hz)
    let target := zs.get ⟨i, hi⟩
    match chanceCheck (calculateSurvivorHitChance a target env) r1 with
    | none => none
    | some hit_r2 =>
      if hit_r2.1 then
        match chanceCheck 10 hit_r2.2 with
        | none => none
        | some crit_r3 =>
          let damage := weaponDamage a * (if crit_r3.1 then 2 else 1)
          let target1 := zombieTakeDamage target damage
          let zs1 := if target1.is_alive then zs.set i target1 else zs.eraseIdx i
          some (zs1, crit_r3.2)
      else some (zs, hit_r2.2)

/-- The survivor phase body: each attacker in (shuffled) order. -/
def runPhaseS (env : EnvMods) :
    List SurvivorC → List ZombieC × Rng → Option (List ZombieC × Rng)
  | [], st => some st
  | a :: rest, st => (attackStepS env st a).bind (runPhaseS env rest)

/-- The survivor phase: shuffle the attackers (the shuffled order becomes
the new survivor list) and run every attack. -/
def survivorPhase (env : EnvMods) (ss : List SurvivorC) (zs : List ZombieC)
    (r : Rng) : Option (List SurvivorC × List ZombieC × Rng) :=
  let shuffled := shuffleList ss r
  (runPhaseS env shuffled.1 (zs, shuffled.2)).map
    (fun st => (shuffled.1, st.1, st.2))

/-- One zombie's attack during the zombie phase: uniform survivor target,
hit roll, 5% critical doubling, damage plus stress equal to half the
damage, immediate removal of a killed survivor. -/
def attackStepZ (env : EnvMods) (st : List SurvivorC × Rng) (z : ZombieC) :
    Option (List SurvivorC × Rng) :=
  let ss := st.1
  let r := st.2
  if h : z.is_alive = false ∨ ss = [] then some (ss, r)
  else
    have hs : ss ≠ [] := fun he => h (Or.inr he)
    let v := (Rng.next r).1
    let r1 := (Rng.next r).2
    let i := v % ss.length
    have hi : i < ss.length := Nat.mod_lt v (List.length_pos.mpr hs)
    let target := ss.get ⟨i, hi⟩
    match chanceCheck (calculateZombieHitChance z target env) r1 with
    | none => none
    | some hit_r2 =>
      if hit_r2.1 then
        match chanceCheck 5 hit_r2.2 with
        | none => none
        | some crit_r3 =>
          let damage := z.damage * (if crit_r3.1 then 2 else 1)
          let target1 := takeDamage target (damage : ℚ)
          let target2 := gainStress target1 ((damage : ℚ) / 2)
          let ss1 := if target2.is_alive then ss.set i target2 else ss.eraseIdx i
          some (ss1, crit_r3.2)
      else some (ss, hit_r2.2)

/-- The zombie phase body. -/
def runPhaseZ (env : EnvMods) :
    List ZombieC → List SurvivorC × Rng → Option (List SurvivorC × Rng)
  | [], st => some st
  | z :: rest, st => (attackStepZ env st z).bind (runPhaseZ env rest)

/-- The zombie phase: shuffle the zombies (the shuffled order becomes the
new zombie list) and run every attack. -/
def zombiePhase (env : EnvMods) (ss : List SurvivorC) (zs : List ZombieC)
    (r : Rng) : Option (List SurvivorC × List ZombieC × Rng) :=
  let shuffled := shuffleList zs r
  (runPhaseZ env shuffled.1 (ss, shuffled.2)).map
    (fun st => (st.1, shuffled.1, st.2))

/-- The round loop of resolve_combat: while both rosters are non-empty
and fewer than 100 rounds have run, play a survivor phase (break on a
zombie wipe before the zombie phase, exactly as the Python loop does),
then a zombie phase (break on a survivor wipe).  The fuel argument only
serves structural termination; fuel 100 is proven sufficient. -/
def combatLoop (env : EnvMods) :
    Nat → Nat → List SurvivorC → List ZombieC → Rng →
    Option (List SurvivorC × List ZombieC × Nat × Rng)
  | fuel, combat_round, ss, zs, r =>
    if ss = [] ∨ zs = [] ∨ ¬ combat_round < 100 then
      some (ss, zs, combat_round, r)
    else
      match fuel with
      | 0 => none
      | fuel + 1 =>
        match survivorPhase env ss zs r with
        | none => none
        | some (ss1, zs1, r1) =>
          if zs1 = [] then some (ss1, zs1, combat_round + 1, r1)
          else
            match zombiePhase env ss1 zs1 r1 with
            | none => none
            | some (ss2, zs2, r2) =>
              if ss2 = [] then some (ss2, zs2, combat_round + 1, r2)
              else combatLoop env fuel (combat_round + 1) ss2 zs2 r2

structure CombatSummary where
  survivors_remaining : Nat
  zombies_remaining : Nat
  total_rounds : Nat
  victory : Bool
  defeat : Bool
  stalemate : Bool
deriving DecidableEq

/-- The per-zombie danger scaling applied before round 1. -/
def dangerScaledZombie (node_danger : Int) (z : ZombieC) : ZombieC :=
  if node_danger > 1 then
    let bonus := (node_danger - 1) * ZOMBIE_HP_PER_DANGER_LEVEL
    { z with base_hp := z.base_hp + bonus, current_hp := z.current_hp + bonus }
  else z

/-- resolve_combat: filter both rosters to the living, scale zombie
health by node danger, loop rounds, and classify the outcome. -/
def resolveCombat (survivors : List SurvivorC) (zombies : List ZombieC)
    (env : EnvMods) (node_danger : Int) (r : Rng) : Option CombatSummary :=
  let active_s := survivors.filter (fun s => s.is_alive)
  let active_z := (zombies.filter (fun z => z.is_alive)).map
    (dangerScaledZombie node_danger)
  match combatLoop env 100 0 active_s active_z r with
  | none => none
  | some (ss, zs, rounds, _) =>
    some { survivors_remaining := ss.length, zombies_remaining := zs.length,
           total_rounds := rounds,
           victory := decide (ss.length > 0 ∧ zs.length = 0),
           defeat := decide (ss.length = 0 ∧ zs.length > 0),
           stalemate := decide (ss.length > 0 ∧ zs.length > 0 ∧ rounds ≥ 100) }

/-! ## Theorems -/

theorem clamp_bounds (x : ℚ) : 0 ≤ max 0 (min 100 x) ∧ max 0 (min 100 x) ≤ 100 := by
  constructor
  · exact le_max_left 0 (min 100 x)
  · exact max_le (by norm_num) (min_le_left 100 x)

/-- C3: the group-action chance, both combat hit chances and the
decision-engine per-choice chance are all clamped into [0, 100] for every
input whatsoever. -/
theorem chance_functions_in_range :
    (∀ (survivors : List SurvivorC) (action : ActionObj) (ty : String) (danger : Int),
      0 ≤ calculateActionSuccessChance survivors action ty danger ∧
      calculateActionSuccessChance survivors action ty danger ≤ 100) ∧
    (∀ (a : SurvivorC) (t : ZombieC) (env : EnvMods),
      0 ≤ calculateSurvivorHitChance a t env ∧
      calculateSurvivorHitChance a t env ≤ 100) ∧
    (∀ (a : ZombieC) (t : SurvivorC) (env : EnvMods),
      0 ≤ calculateZombieHitChance a t env ∧
      calculateZombieHitChance a t env ≤ 100) ∧
    (∀ (c : ChoiceC) (survivors : List SurvivorC),
      0 ≤ calculateChoiceSpecificChance c survivors ∧
      calculateChoiceSpecificChance c survivors ≤ 100) := by
  refine ⟨fun survivors action ty danger => ?_, fun a t env => ?_,
    fun a t env => ?_, fun c survivors => ?_⟩
  · exact clamp_bounds _
  · exact clamp_bounds _
  · exact clamp_bounds _
  · exact clamp_bounds _

/-- C1: for chance in [0,100] and roll in [1,100], the shared tier
classification satisfies the success / critical-success /
critical-failure characterizations, selects exactly one of the four
string tiers (each tier string is returned precisely on its defining
condition), and the critical tiers are subsets of their parents. -/
theorem tier_classification (chance : ℚ) (roll : Nat)
    (hc0 : 0 ≤ chance) (hc1 : chance ≤ 100)
    (hr0 : 1 ≤ roll) (hr1 : roll ≤ 100) :
    (isSuccessful chance roll = true ↔ (roll : ℚ) ≤ chance) ∧
    (isCriticalSuccess chance roll = true ↔
      isSuccessful chance roll = true ∧ 95 ≤ roll) ∧
    (isCriticalFailure chance roll = true ↔
      isSuccessful chance roll = false ∧ roll ≤ 5) ∧
    (outcomeType chance roll = "critical_success" ↔
      isSuccessful chance roll = true ∧ 95 ≤ roll) ∧
    (outcomeType chance roll = "success" ↔
      isSuccessful chance roll = true ∧ roll < 95) ∧
    (outcomeType chance roll = "critical_failure" ↔
      isSuccessful chance roll = false ∧ roll ≤ 5) ∧
    (outcomeType chance roll = "failure" ↔
      isSuccessful chance roll = false ∧ 5 < roll) ∧
    (isCriticalSuccess chance roll = true → isSuccessful chance roll = true) ∧
    (isCriticalFailure chance roll = true → isSuccessful chance roll = false) := by
  by_cases hsucc : (roll : ℚ) ≤ chance <;> by_cases h95 : 95 ≤ roll <;>
    by_cases h5 : roll ≤ 5 <;>
    simp [outcomeType, isCriticalSuccess, isCriticalFailure, isSuccessful,
      CRITICAL_SUCCESS_THRESHOLD, CRITICAL_FAILURE_THRESHOLD,
      hsucc, h95, h5] <;> omega

/-- Witness for the tier classification theorem at chance 50, roll 30. -/
theorem tier_classification_witness :
    (isSuccessful 50 30 = true ↔ (30 : ℚ) ≤ 50) ∧
    (isCriticalSuccess 50 30 = true ↔ isSuccessful 50 30 = true ∧ 95 ≤ 30) ∧
    (isCriticalFailure 50 30 = true ↔ isSuccessful 50 30 = false ∧ 30 ≤ 5) ∧
    (outcomeType 50 30 = "critical_success" ↔
      isSuccessful 50 30 = true ∧ 95 ≤ 30) ∧
    (outcomeType 50 30 = "success" ↔ isSuccessful 50 30 = true ∧ 30 < 95) ∧
    (outcomeType 50 30 = "critical_failure" ↔
      isSuccessful 50 30 = false ∧ 30 ≤ 5) ∧
    (outcomeType 50 30 = "failure" ↔ isSuccessful 50 30 = false ∧ 5 < 30) ∧
    (isCriticalSuccess 50 30 = true → isSuccessful 50 30 = true) ∧
    (isCriticalFailure 50 30 = true → isSuccessful 50 30 = false) :=
  tier_classification 50 30 (by norm_num) (by norm_num) (by norm_num) (by norm_num)

/-- C9: a living Constitution-7 survivor at full health (110) who takes 50
raw damage has reduction min(35, 50) = 35 percent, takes ceil(32.5) = 33
actual damage, ends at 77 of 110 health, alive and not injured. -/
theorem constitution_damage_scenario :
    scenarioSurvivor.max_hp = 110 ∧
    scenarioSurvivor.current_hp = 110 ∧
    min ((7 : ℚ) * 5) 50 = 35 ∧
    Int.ceil ((50 : ℚ) * (1 - 35 / 100)) = 33 ∧
    (takeDamage scenarioSurvivor 50).current_hp = 77 ∧
    (takeDamage scenarioSurvivor 50).max_hp = 110 ∧
    (takeDamage scenarioSurvivor 50).is_alive = true ∧
    (takeDamage scenarioSurvivor 50).is_injured = false := by
  have hmin : min ((7 : ℚ) * 5) 50 = 35 := by norm_num
  have hceil : Int.ceil ((50 : ℚ) * (1 - 35 / 100)) = 33 := by
    rw [Int.ceil_eq_iff] <;> norm_num
  have hceil2 : (⌈(65 / 2 : ℚ)⌉ : ℤ) = 33 := by
    rw [Int.ceil_eq_iff] <;> norm_num
  have hres : takeDamage scenarioSurvivor 50 =
      { name := "Scenario", attrs := ⟨5, 5, 5, 5, 5, 7, 5⟩, skills := [],
        traits := [], inventory := [], max_hp := 110, current_hp := 77,
        max_stress := 90, current_stress := 0, is_alive := true,
        is_injured := false, is_stressed := false } := by
    simp only [takeDamage, scenarioSurvivor, mkSurvivor]
    norm_num [hceil2]
  refine ⟨by norm_num [scenarioSurvivor, mkSurvivor],
    by norm_num [scenarioSurvivor, mkSurvivor], hmin, hceil, ?_, ?_, ?_, ?_⟩ <;>
    simp [hres]

/-- C7 counterexample: Zombie.take_damage on a dead zombie with a
negative amount (the claim quantifies over any amount) raises its current
health from 0 to 5, so the state is not left unchanged. -/
theorem dead_zombie_negative_amount_counterexample :
    deadZombie.is_alive = false ∧
    (zombieTakeDamage deadZombie (-5)).current_hp = 5 ∧
    deadZombie.current_hp = 0 ∧
    zombieTakeDamage deadZombie (-5) ≠ deadZombie := by
  decide

/-- C7 as amended: a dead survivor is left entirely unchanged by
take_damage, gain_stress, reduce_stress and heal for every amount, and a
dead zombie (current health zero) is left entirely unchanged by
Zombie.take_damage for every non-negative amount. -/
theorem dead_actor_inertness (s : SurvivorC) (hs : s.is_alive = false)
    (a : ℚ) (z : ZombieC) (hz : z.is_alive = false) (hz0 : z.current_hp = 0)
    (b : Int) (hb : 0 ≤ b) :
    takeDamage s a = s ∧ gainStress s a = s ∧ reduceStress s a = s ∧
    heal s a = s ∧ zombieTakeDamage z b = z := by
  have h1 : z.current_hp - b ≤ 0 := by omega
  refine ⟨by simp [takeDamage, hs], by simp [gainStress, hs],
    by simp [reduceStress, hs], by simp [heal, hs], ?_⟩
  simp only [zombieTakeDamage, if_pos h1]
  cases z
  simp_all

/-- Witness for the dead-actor inertness theorem: a concrete dead
survivor with amount 10 and a concrete dead zombie with amount 3. -/
theorem dead_actor_inertness_witness :
    takeDamage deadSurvivor 10 = deadSurvivor ∧
    gainStress deadSurvivor 10 = deadSurvivor ∧
    reduceStress deadSurvivor 10 = deadSurvivor ∧
    heal deadSurvivor 10 = deadSurvivor ∧
    zombieTakeDamage deadZombie 3 = deadZombie :=
  dead_actor_inertness deadSurvivor rfl 10 deadZombie rfl rfl 3 (by norm_num)

theorem ledgerSet_nonneg {l : Ledger} {name : String} {v : Int}
    (hl : LedgerNonneg l) (hv : 0 ≤ v) : LedgerNonneg (ledgerSet l name v) := by
  induction l with
  | nil => intro p hp; simp [ledgerSet] at hp
  | cons q rest ih =>
    obtain ⟨k, w⟩ := q
    intro p hp
    by_cases hk : k = name
    · simp only [ledgerSet] at hp
      rw [if_pos hk] at hp
      rcases List.mem_cons.mp hp with hp | hp
      · subst hp; exact hv
      · exact hl p (List.mem_cons_of_mem _ hp)
    · simp only [ledgerSet] at hp
      rw [if_neg hk] at hp
      rcases List.mem_cons.mp hp with hp | hp
      · subst hp; exact hl (k, w) (by simp)
      · exact ih (fun r hr => hl r (List.mem_cons_of_mem _ hr)) p hp

theorem lookup_nonneg {l : Ledger} {name : String} {c : Int}
    (hl : LedgerNonneg l) (h : l.lookup name = some c) : 0 ≤ c := by
  induction l with
  | nil => simp [List.lookup] at h
  | cons q rest ih =>
    rw [List.lookup] at h
    by_cases hq : name = q.1
    · have : (name == q.1) = true := by simp [hq]
      rw [this] at h
      simp only [Option.some.injEq] at h
      subst h
      exact hl q (by simp)
    · have : (name == q.1) = false := by simp [hq]
      rw [this] at h
      exact ih (fun r hr => hl r (List.mem_cons_of_mem _ hr)) h

theorem addResource_nonneg {l : Ledger} {name : String} {qty : Int}
    (hl : LedgerNonneg l) (hq : 0 ≤ qty) :
    LedgerNonneg (addResource l name qty) := by
  unfold addResource
  cases hcase : l.lookup name with
  | some cur =>
    exact ledgerSet_nonneg hl (Int.add_nonneg (lookup_nonneg hl hcase) hq)
  | none =>
    intro p hp
    rcases List.mem_append.mp hp with hp | hp
    · exact hl p hp
    · simp at hp; simp [hp, hq]

theorem removeResource_nonneg {l : Ledger} {name : String} {qty : Int}
    (hl : LedgerNonneg l) : LedgerNonneg (removeResource l name qty).2 := by
  unfold removeResource
  cases hcase : l.lookup name with
  | some cur =>
    by_cases hge : cur ≥ qty
    · simpa [hge] using ledgerSet_nonneg hl (by omega)
    · simpa [hge] using hl
  | none => exact hl

/-- C8 counterexample: add_resource places its quantity into the ledger
unchecked, so a single call with a negative quantity drives the (initially
all-zero, hence non-negative) ledger negative. -/
theorem ledger_negative_add_counterexample :
    LedgerNonneg initialResources ∧
    ledgerGet (applyOps [LedgerOp.add "Food" (-5)] initialResources) "Food" = -5 ∧
    ¬ LedgerNonneg (applyOps [LedgerOp.add "Food" (-5)] initialResources) := by
  decide

/-- C8 as amended: a call sequence in which every add_resource call has a
non-negative quantity (remove_resource calls are unrestricted) keeps every
entry of an initially non-negative ledger non-negative; and whenever
remove_resource requests more than the current quantity of the resource it
returns False and leaves the whole ledger unchanged. -/
theorem ledger_nonneg_and_remove_insufficient :
    (∀ (ops : List LedgerOp) (l : Ledger), LedgerNonneg l →
      (∀ name qty, LedgerOp.add name qty ∈ ops → 0 ≤ qty) →
      LedgerNonneg (applyOps ops l)) ∧
    (∀ (l : Ledger) (name : String) (qty : Int), ledgerGet l name < qty →
      removeResource l name qty = (false, l)) := by
  constructor
  · intro ops
    induction ops with
    | nil => intro l hl _; simpa [applyOps] using hl
    | cons op rest ih =>
      intro l hl hadd
      have hstep : LedgerNonneg (applyOp l op) := by
        cases op with
        | add name qty =>
          exact addResource_nonneg hl (hadd name qty (by simp))
        | remove name qty => exact removeResource_nonneg hl
      have : applyOps (op :: rest) l = applyOps rest (applyOp l op) := by
        simp [applyOps]
      rw [this]
      exact ih (applyOp l op) hstep
        (fun name qty hmem => hadd name qty (List.mem_cons_of_mem _ hmem))
  · intro l name qty hlt
    unfold removeResource
    cases hcase : l.lookup name with
    | some cur =>
      have : ¬ cur ≥ qty := by
        simp only [ledgerGet, hcase, Option.getD_some] at hlt
        omega
      simp [this]
    | none => rfl

/-- Witness for the amended ledger theorem: a legal call sequence on the
initial ledger stays non-negative, and removing 5 Food from the initial
(zero) ledger fails without mutation. -/
theorem ledger_nonneg_witness :
    LedgerNonneg (applyOps [LedgerOp.add "Food" 5, LedgerOp.remove "Food" 2]
      initialResources) ∧
    removeResource initialResources "Food" 5 = (false, initialResources) := by
  constructor
  · refine ledger_nonneg_and_remove_insufficient.1 _ _ (by decide) ?_
    intro name qty hmem
    rcases List.mem_cons.mp hmem with h | h
    · cases h; omega
    · simp at h
  · exact ledger_nonneg_and_remove_insufficient.2 _ _ _ (by decide)

/-! ## Decision-engine choice chance (decision_engine.py 40-60) -/

/-- Generic accumulator shape: a left fold that only ever adds to its
accumulator equals the accumulator plus the sum of the additions. -/
theorem foldl_add_eq_add_sum {α : Type} (g : α → ℚ) :
    ∀ (l : List α) (a : ℚ),
      l.foldl (fun acc x => acc + g x) a = a + (l.map g).sum := by
  intro l
  induction l with
  | nil => intro a; simp
  | cons x rest ih =>
    intro a
    simp only [List.foldl_cons, List.map_cons, List.sum_cons]
    rw [ih]
    ring

theorem choiceSkillFold_eq {s : SurvivorC} (entries : List (String × Int))
    (acc : ℚ) :
    choiceSkillFold s entries acc = acc + (entries.map (skillEntryBonus s)).sum := by
  unfold choiceSkillFold
  rw [show (fun (acc : ℚ) (entry : String × Int) =>
      if skillHas s entry.1 ∧ skillGet s entry.1 ≥ entry.2 then
        acc + ((skillGet s entry.1 : ℚ) - (entry.2 : ℚ) + 1) * 5
      else acc)
    = fun acc entry => acc + skillEntryBonus s entry from ?_]
  · exact foldl_add_eq_add_sum _ entries acc
  · funext acc entry
    unfold skillEntryBonus
    split
    · rfl
    · simp

theorem choiceAttrFold_eq {s : SurvivorC} (entries : List (AttrName × Int))
    (acc : ℚ) :
    choiceAttrFold s entries acc = acc + (entries.map (attrEntryBonus s)).sum := by
  unfold choiceAttrFold
  rw [show (fun (acc : ℚ) (entry : AttrName × Int) =>
      if attrVal s.attrs entry.1 ≥ entry.2 then
        acc + ((attrVal s.attrs entry.1 : ℚ) - (entry.2 : ℚ) + 1) * 2
      else acc)
    = fun acc entry => acc + attrEntryBonus s entry from ?_]
  · exact foldl_add_eq_add_sum _ entries acc
  · funext acc entry
    unfold attrEntryBonus
    split
    · rfl
    · simp

/-- C5 as amended: the code's per-choice chance equals the base
percentage plus the (level - threshold + 1)·5 / (value - threshold + 1)·2
bonuses summed over all participants and all prerequisite entries each
participant meets, clamped to [0, 100]; a participant exactly at a
threshold contributes the flat 5 (skill) or 2 (attribute) percent. -/
theorem choice_chance_amended (choice : ChoiceC) (survivors : List SurvivorC) :
    calculateChoiceSpecificChance choice survivors =
      choiceChanceAmended choice survivors := by
  have hstep : (fun (acc : ℚ) (s : SurvivorC) =>
      let acc1 := match choice.prereq_skill with
        | some entries => choiceSkillFold s entries acc
        | none => acc
      match choice.prereq_attribute with
        | some entries => choiceAttrFold s entries acc1
        | none => acc1)
      = fun acc s => acc + survivorChoiceBonus choice s := by
    funext acc s
    unfold survivorChoiceBonus
    cases hsk : choice.prereq_skill with
    | some se =>
      cases hat : choice.prereq_attribute with
      | some ae => simp only [choiceSkillFold_eq, choiceAttrFold_eq]; ring
      | none => simp only [choiceSkillFold_eq]; ring
    | none =>
      cases hat : choice.prereq_attribute with
      | some ae => simp only [choiceAttrFold_eq]; ring
      | none => simp only []; ring
  unfold calculateChoiceSpecificChance choiceChanceAmended
  rw [hstep, foldl_add_eq_add_sum]

/-- C5 counterexample: a participant exactly at a skill threshold makes
the code return base + 5 (here 55), while the claim's formula (no bonus at
exactly the threshold) gives the bare base 50. -/
theorem choice_chance_counterexample :
    calculateChoiceSpecificChance counterChoice [counterScout] = 55 ∧
    choiceChanceClaim counterChoice [counterScout] = 50 ∧
    calculateChoiceSpecificChance counterChoice [counterScout] ≠
      choiceChanceClaim counterChoice [counterScout] := by
  have h1 : calculateChoiceSpecificChance counterChoice [counterScout] = 55 := by
    simp [calculateChoiceSpecificChance, counterChoice, counterScout,
      choiceSkillFold, skillHas, skillGet, mkSurvivor, List.lookup]
    norm_num
  have h2 : choiceChanceClaim counterChoice [counterScout] = 50 := by
    simp [choiceChanceClaim, counterChoice, counterScout, skillGet,
      mkSurvivor, List.lookup]
    norm_num
  exact ⟨h1, h2, by rw [h1, h2]; norm_num⟩

/-! ## Ledger access lemmas -/

theorem lookup_ledgerSet_same {l : Ledger} {k : String} {v : Int}
    (h : (l.lookup k).isSome) : (ledgerSet l k v).lookup k = some v := by
  induction l with
  | nil => simp [List.lookup] at h
  | cons q rest ih =>
    obtain ⟨a, b⟩ := q
    by_cases hk : a = k
    · simp [ledgerSet, hk, List.lookup]
    · have hne : (k == a) = false := by
        simp [BEq.beq]
        exact fun he => hk he.symm
      simp only [ledgerSet, if_neg hk, List.lookup, hne]
      simp only [List.lookup, hne] at h
      exact ih h

theorem lookup_ledgerSet_other {l : Ledger} {k k' : String} {v : Int}
    (hne : k' ≠ k) : (ledgerSet l k v).lookup k' = l.lookup k' := by
  induction l with
  | nil => simp [ledgerSet]
  | cons q rest ih =>
    obtain ⟨a, b⟩ := q
    by_cases hk : a = k
    · subst hk
      have : (k' == a) = false := by simp [BEq.beq]; exact hne
      simp [ledgerSet, List.lookup, this]
    · simp only [ledgerSet, if_neg hk, List.lookup]
      by_cases hk' : k' = a
      · simp [hk']
      · have : (k' == a) = false := by simp [BEq.beq]; exact hk'
        simp [this, ih]

theorem ledgerGet_removeResource_same {l : Ledger} {k : String} {q : Int}
    (hq : 0 < q) (hav : q ≤ ledgerGet l k) :
    ledgerGet (removeResource l k q).2 k = ledgerGet l k - q := by
  unfold removeResource
  cases hc : l.lookup k with
  | none =>
    exfalso
    simp only [ledgerGet, hc, Option.getD_none] at hav
    omega
  | some cur =>
    have hcur : ledgerGet l k = cur := by simp [ledgerGet, hc]
    have hge : cur ≥ q := by omega
    have hsome : (l.lookup k).isSome := by rw [hc]; rfl
    simp only [hge, if_pos, ledgerGet]
    rw [lookup_ledgerSet_same hsome, hc]
    simp

theorem ledgerGet_removeResource_other {l : Ledger} {k k' : String} {q : Int}
    (hne : k' ≠ k) :
    ledgerGet (removeResource l k q).2 k' = ledgerGet l k' := by
  unfold removeResource
  cases hc : l.lookup k with
  | none => rfl
  | some cur =>
    by_cases hge : cur ≥ q
    · simp only [hge, if_pos]
      simp [ledgerGet, lookup_ledgerSet_other hne]
    · simp [hge]

theorem lookup_append_singleton {l : Ledger} {k k' : String} {q : Int}
    (hne : k' ≠ k) : (l ++ [(k, q)]).lookup k' = l.lookup k' := by
  induction l with
  | nil =>
    have h2 : (k' == k) = false := by simp [BEq.beq]; exact hne
    simp [List.lookup, h2]
  | cons p rest ih =>
    obtain ⟨a, b⟩ := p
    by_cases hk' : k' = a
    · simp [List.lookup, hk']
    · have h2 : (k' == a) = false := by simp [BEq.beq]; exact hk'
      simpa [List.lookup, h2] using ih

theorem ledgerGet_addResource_other {l : Ledger} {k k' : String} {q : Int}
    (hne : k' ≠ k) :
    ledgerGet (addResource l k q) k' = ledgerGet l k' := by
  unfold addResource
  cases hc : l.lookup k with
  | some cur => simp [ledgerGet, lookup_ledgerSet_other hne]
  | none =>
    simp only [ledgerGet]
    rw [lookup_append_singleton hne]

/-! ## The consume loop of craft_item debits exactly the required map -/

theorem consumeFold_spec :
    ∀ (req : List (String × Int)) (l : Ledger) (c0 : List (String × Int)),
      (∀ p ∈ req, p.2 > 0 → p.2 ≤ ledgerGet l p.1) →
      (req.map Prod.fst).Nodup →
      (req.foldl consumeStep (l, c0)).2 = c0 ++ req.filter (fun p => p.2 > 0) ∧
      (∀ p ∈ req, p.2 > 0 →
        ledgerGet (req.foldl consumeStep (l, c0)).1 p.1 =
          ledgerGet l p.1 - p.2) ∧
      (∀ k, k ∉ req.map Prod.fst →
        ledgerGet (req.foldl consumeStep (l, c0)).1 k = ledgerGet l k) := by
  intro req
  induction req with
  | nil => intro l c0 _ _; refine ⟨by simp, by simp, by simp⟩
  | cons p rest ih =>
    intro l c0 hav hnodup
    have hmap : (p.1 :: rest.map Prod.fst).Nodup := by
      simpa only [List.map_cons] using hnodup
    have hnotin : p.1 ∉ rest.map Prod.fst := (List.nodup_cons.mp hmap).1
    have hnodup' : (rest.map Prod.fst).Nodup := (List.nodup_cons.mp hmap).2
    by_cases hp2 : p.2 > 0
    · have hstep : consumeStep (l, c0) p =
          ((removeResource l p.1 p.2).2, c0 ++ [p]) := by
        simp [consumeStep, hp2]
      have havp : p.2 ≤ ledgerGet l p.1 := hav p (by simp) hp2
      have hl1same : ledgerGet (removeResource l p.1 p.2).2 p.1 =
          ledgerGet l p.1 - p.2 := ledgerGet_removeResource_same hp2 havp
      have hl1other : ∀ k, k ≠ p.1 →
          ledgerGet (removeResource l p.1 p.2).2 k = ledgerGet l k :=
        fun k hk => ledgerGet_removeResource_other hk
      have hav' : ∀ r ∈ rest, r.2 > 0 →
          r.2 ≤ ledgerGet (removeResource l p.1 p.2).2 r.1 := by
        intro r hr hrpos
        have hrne : r.1 ≠ p.1 := by
          intro he
          exact hnotin (he ▸ List.mem_map_of_mem Prod.fst hr)
        rw [hl1other r.1 hrne]
        exact hav r (List.mem_cons_of_mem _ hr) hrpos
      obtain ⟨ih1, ih2, ih3⟩ :=
        ih (removeResource l p.1 p.2).2 (c0 ++ [p]) hav' hnodup'
      have hfold : (p :: rest).foldl consumeStep (l, c0) =
          rest.foldl consumeStep ((removeResource l p.1 p.2).2, c0 ++ [p]) := by
        simp [List.foldl_cons, hstep]
      refine ⟨?_, ?_, ?_⟩
      · rw [hfold, ih1]
        simp [List.filter_cons, hp2]
      · intro r hr hrpos
        rcases List.mem_cons.mp hr with hre | hre
        · subst hre
          rw [hfold, ih3 r.1 hnotin, hl1same]
        · have hrne : r.1 ≠ p.1 := by
            intro he
            exact hnotin (he ▸ List.mem_map_of_mem Prod.fst hre)
          rw [hfold, ih2 r hre hrpos, hl1other r.1 hrne]
      · intro k hk
        have hkp : k ≠ p.1 := by
          intro he; exact hk (by simp [he])
        have hkrest : k ∉ rest.map Prod.fst := by
          intro he; exact hk (by simp [he])
        rw [hfold, ih3 k hkrest, hl1other k hkp]
    · have hstep : consumeStep (l, c0) p = (l, c0) := by
        simp [consumeStep, hp2]
      have hav' : ∀ r ∈ rest, r.2 > 0 → r.2 ≤ ledgerGet l r.1 :=
        fun r hr => hav r (List.mem_cons_of_mem _ hr)
      obtain ⟨ih1, ih2, ih3⟩ := ih l c0 hav' hnodup'
      have hfold : (p :: rest).foldl consumeStep (l, c0) =
          rest.foldl consumeStep (l, c0) := by
        simp [List.foldl_cons, hstep]
      refine ⟨?_, ?_, ?_⟩
      · rw [hfold, ih1]
        simp [List.filter_cons, hp2]
      · intro r hr hrpos
        rcases List.mem_cons.mp hr with hre | hre
        · subst hre; exact absurd hrpos hp2
        · rw [hfold]; exact ih2 r hre hrpos
      · intro k hk
        have hkrest : k ∉ rest.map Prod.fst := by
          intro he; exact hk (by simp [he])
        rw [hfold]; exact ih3 k hkrest

/-- C10: craft_item debits the ledger before rolling.  Whenever the
recipe is found and the availability check passes but the success roll
fails, the call returns success = false with produced quantity 0 and the
consumed map (the positive skill-reduced requirements), while the final
ledger still has each positive requirement debited — nothing is
refunded. -/
theorem craft_debits_before_roll (recipes : List (String × Recipe))
    (ledger : Ledger) (recipe_id : String) (quantity : Int)
    (survivor : Option SurvivorC) (rng : RngQ) (recipe : Recipe)
    (hfound : lookupRecipe recipes recipe_id = some recipe)
    (hnodup : ((craftRequired recipe (craftMechLevel survivor) quantity).map
      Prod.fst).Nodup)
    (havail : ∀ p ∈ craftRequired recipe (craftMechLevel survivor) quantity,
      p.2 ≤ ledgerGet ledger p.1)
    (hfail : ¬ rng.stream rng.cursor ≤
      craftSuccessChance recipe (craftMechLevel survivor)) :
    ∃ ledger1,
      craftItem recipes ledger recipe_id quantity survivor rng =
        some ({ success := false, produced_qty := 0,
                consumed := (craftRequired recipe (craftMechLevel survivor)
                  quantity).filter (fun p => p.2 > 0) },
          ledger1, survivor, ⟨rng.stream, rng.cursor + 1⟩) ∧
      ∀ p ∈ craftRequired recipe (craftMechLevel survivor) quantity,
        p.2 > 0 → ledgerGet ledger1 p.1 = ledgerGet ledger p.1 - p.2 := by
  have hall : ((craftRequired recipe (craftMechLevel survivor) quantity).all
      (fun p => decide (ledgerGet ledger p.1 ≥ p.2))) = true := by
    rw [List.all_eq_true]
    intro p hp
    exact decide_eq_true (havail p hp)
  obtain ⟨hcons, hget, _⟩ := consumeFold_spec
    (craftRequired recipe (craftMechLevel survivor) quantity) ledger []
    (fun p hp _ => havail p hp) hnodup
  refine ⟨((craftRequired recipe (craftMechLevel survivor) quantity).foldl
    consumeStep (ledger, [])).1, ?_, hget⟩
  have hdec : decide (rng.stream rng.cursor ≤
      craftSuccessChance recipe (craftMechLevel survivor)) = false :=
    decide_eq_false hfail
  simp only [craftItem, hfound, hall, if_true, RngQ.next, hdec,
    Bool.false_eq_true, if_false, hcons, List.nil_append]

/-- Witness for the craft-debit theorem: crafting a Medkit (requires
Scrap 5, ElectronicParts 2) with no crafter from a ledger holding Scrap
10 and ElectronicParts 5, with a failing roll of 0.95 against the default
0.9 success chance. -/
theorem craft_debits_witness :
    ∃ ledger1,
      craftItem RECIPES [("Scrap", 10), ("ElectronicParts", 5)] "Medkit" 1
        none ⟨fun _ => 19 / 20, 0⟩ =
        some ({ success := false, produced_qty := 0,
                consumed := (craftRequired
                  { requires := [("Scrap", 5), ("ElectronicParts", 2)],
                    produces_item := some "Medkit", produces_resource := none,
                    produces_quantity := some 1, base_success_chance := none }
                  (craftMechLevel none) 1).filter (fun p => p.2 > 0) },
          ledger1, none, ⟨fun _ => 19 / 20, 1⟩) ∧
      ∀ p ∈ craftRequired
          { requires := [("Scrap", 5), ("ElectronicParts", 2)],
            produces_item := some "Medkit", produces_resource := none,
            produces_quantity := some 1, base_success_chance := none }
          (craftMechLevel none) 1,
        p.2 > 0 → ledgerGet ledger1 p.1 =
          ledgerGet [("Scrap", 10), ("ElectronicParts", 5)] p.1 - p.2 :=
  craft_debits_before_roll RECIPES [("Scrap", 10), ("ElectronicParts", 5)]
    "Medkit" 1 none ⟨fun _ => 19 / 20, 0⟩ _ rfl (by decide) (by decide)
    (by norm_num [craftSuccessChance, craftMechLevel])

/-! ## C4: the crafted-reward path never invokes crafting -/

/-- C4 counterexample: with a ledger amply covering the Medkit recipe
(Scrap 10, ElectronicParts 2 available of 5/2 required) and a
"Medkit_crafted" reward of 1, the resolver leaves Scrap untouched at 10,
while the claim's craft-invoking semantics (resource check passes, so no
fallback) would leave Scrap at 5 — the two ledgers differ, so the
resolver does not invoke the crafting primitive. -/
theorem crafted_reward_counterexample :
    ledgerGet (applyReward [("Scrap", 10), ("ElectronicParts", 5)]
      "Medkit_crafted" 1 false) "Scrap" = 10 ∧
    ledgerGet (applyCraftedRewardClaim [("Scrap", 10), ("ElectronicParts", 5)]
      "Medkit_crafted" 1 false ⟨fun _ => 0, 0⟩) "Scrap" = 5 ∧
    applyReward [("Scrap", 10), ("ElectronicParts", 5)]
      "Medkit_crafted" 1 false ≠
    applyCraftedRewardClaim [("Scrap", 10), ("ElectronicParts", 5)]
      "Medkit_crafted" 1 false ⟨fun _ => 0, 0⟩ := by
  have hstrip : stripCrafted "Medkit_crafted" = "Medkit" := by decide
  have hends : endsWithCrafted "Medkit_crafted" = true := by decide
  have hcode : applyReward [("Scrap", 10), ("ElectronicParts", 5)]
      "Medkit_crafted" 1 false =
      [("Scrap", 10), ("ElectronicParts", 5), ("Medkit", 1)] := by
    simp only [applyReward, hends, hstrip, if_true]
    norm_num
    decide
  have hsucc : decide (((0 : ℚ)) ≤ craftSuccessChance
      { requires := [("Scrap", 5), ("ElectronicParts", 2)],
        produces_item := some "Medkit", produces_resource := none,
        produces_quantity := some 1, base_success_chance := none }
      (craftMechLevel none)) = true := by
    rw [decide_eq_true_iff]
    norm_num [craftSuccessChance, craftMechLevel]
  have hcrit : decide (((0 : ℚ)) ≤ min (1 / 2 : ℚ)
      (5 / 100 + (2 / 100) * ((craftMechLevel none : Int) : ℚ))) = true := by
    rw [decide_eq_true_iff]
    norm_num [craftMechLevel]
  have hclaim : applyCraftedRewardClaim [("Scrap", 10), ("ElectronicParts", 5)]
      "Medkit_crafted" 1 false ⟨fun _ => 0, 0⟩ =
      [("Scrap", 5), ("ElectronicParts", 3), ("Medkit", 2)] := by
    simp only [applyCraftedRewardClaim, hstrip]
    rw [show lookupRecipe RECIPES "Medkit" = some
      { requires := [("Scrap", 5), ("ElectronicParts", 2)],
        produces_item := some "Medkit", produces_resource := none,
        produces_quantity := some 1, base_success_chance := none } from rfl]
    simp only [craftItem, RngQ.next]
    rw [show lookupRecipe RECIPES "Medkit" = some
      { requires := [("Scrap", 5), ("ElectronicParts", 2)],
        produces_item := some "Medkit", produces_resource := none,
        produces_quantity := some 1, base_success_chance := none } from rfl]
    simp only [hsucc, hcrit]
    decide
  rw [hcode, hclaim]
  refine ⟨by decide, by decide, by decide⟩

/-- C4 as amended: for every reward key ending in "_crafted", the
resolver simply strips the suffix and adds the item name directly to the
shared resource ledger (doubled on critical success); every other ledger
entry — in particular any recipe requirement — is left unchanged, i.e.
no resources are consumed and the crafting primitive plays no part. -/
theorem crafted_reward_amended (ledger : Ledger) (res : String) (qty : Int)
    (crit : Bool) (hends : endsWithCrafted res = true) :
    applyReward ledger res qty crit =
      addResource ledger (stripCrafted res)
        (qty * (if crit then 2 else 1)) ∧
    ∀ name, name ≠ stripCrafted res →
      ledgerGet (applyReward ledger res qty crit) name = ledgerGet ledger name := by
  have hexp : res ≠ "Experience" := by
    intro he
    rw [he] at hends
    exact absurd hends (by decide)
  have h1 : applyReward ledger res qty crit =
      addResource ledger (stripCrafted res) (qty * (if crit then 2 else 1)) := by
    simp [applyReward, hexp, hends]
  exact ⟨h1, fun name hname => by
    rw [h1]; exact ledgerGet_addResource_other hname⟩

/-- Witness for the amended crafted-reward theorem at the concrete
counterexample input. -/
theorem crafted_reward_amended_witness :
    applyReward [("Scrap", 10), ("ElectronicParts", 5)] "Medkit_crafted" 1 false =
      addResource [("Scrap", 10), ("ElectronicParts", 5)]
        (stripCrafted "Medkit_crafted") (1 * (if false then 2 else 1)) ∧
    ∀ name, name ≠ stripCrafted "Medkit_crafted" →
      ledgerGet (applyReward [("Scrap", 10), ("ElectronicParts", 5)]
        "Medkit_crafted" 1 false) name =
      ledgerGet [("Scrap", 10), ("ElectronicParts", 5)] name :=
  crafted_reward_amended [("Scrap", 10), ("ElectronicParts", 5)]
    "Medkit_crafted" 1 false (by decide)

/-! ## C6: the injury-chance consequence -/

theorem applyInjuryGo_eq (v : ℚ) (h0 : 0 ≤ v) (h100 : v ≤ 100) :
    ∀ (ss : List SurvivorC) (r : Rng),
      applyInjuryGo v ss r =
        some (injuryMap v r.stream r.cursor ss,
          ⟨r.stream, r.cursor + ss.length⟩) := by
  intro ss
  induction ss with
  | nil => intro r; simp [applyInjuryGo, injuryMap]
  | cons s rest ih =>
    intro r
    have hcc : chanceCheck v r =
        some (decide (((r.stream r.cursor % 100 + 1 : Nat) : ℚ) ≤ v),
          ⟨r.stream, r.cursor + 1⟩) := by
      simp [chanceCheck, rollD100, Rng.next, h0, h100]
    simp only [applyInjuryGo, hcc, Option.bind, ih ⟨r.stream, r.cursor + 1⟩,
      Option.map, injuryMap, List.length_cons]
    have harith : r.cursor + 1 + rest.length = r.cursor + (rest.length + 1) := by
      omega
    simp [harith, decide_eq_true_eq]

theorem injuryMap_getElem (v : ℚ) (stream : Nat → Nat) :
    ∀ (ss : List SurvivorC) (k i : Nat),
      (injuryMap v stream k ss)[i]? =
        (ss[i]?).map (fun s =>
          if ((stream (k + i) % 100 + 1 : Nat) : ℚ) ≤ v then
            { s with is_injured := true }
          else s) := by
  intro ss
  induction ss with
  | nil => intro k i; simp [injuryMap]
  | cons s rest ih =>
    intro k i
    cases i with
    | zero => simp [injuryMap]
    | succ j =>
      simp only [injuryMap, List.getElem?_cons_succ]
      rw [ih (k + 1) j]
      have harith : k + 1 + j = k + (j + 1) := by omega
      rw [harith]

/-- C6 counterexample: an Injury_chance value of 60 (inside [0, 100] and
positive), doubled by a critical failure to 120, makes chance_check raise
(the probability-check mechanism validates rather than caps), so the whole
consequence loop errors instead of running the per-participant checks. -/
theorem injury_overdose_counterexample :
    (0 : ℚ) ≤ 60 ∧ (60 : ℚ) ≤ 100 ∧ (0 : ℚ) < 60 ∧
    applyInjury [scenarioSurvivor] 60 true ⟨fun _ => 0, 0⟩ = none := by
  refine ⟨by norm_num, by norm_num, by norm_num, ?_⟩
  have h60 : ((60 : ℚ) > 0) := by norm_num
  have hbad : ¬ ((0 : ℚ) ≤ 60 * 2 ∧ (60 : ℚ) * 2 ≤ 100) := by
    intro h
    have := h.2
    norm_num at this
  simp [applyInjury, h60, applyInjuryGo, chanceCheck, hbad]
  norm_num

/-- C6 as amended: the Injury_chance consequence runs one independent
chance_check per participant at the value (doubled on critical failure),
and a passing check sets that participant's injured flag; but chance_check
validates its argument instead of capping it, so this holds only while
the (possibly doubled) value stays within [0, 100] — beyond that the
check raises.  Under that bound, the i-th participant of the result is
exactly the input participant, flagged injured iff the i-th roll passes. -/
theorem injury_chance_amended (survivors : List SurvivorC) (value : ℚ)
    (cf : Bool) (r : Rng) (hpos : 0 < value)
    (hcap : value * (if cf then 2 else 1) ≤ 100) :
    applyInjury survivors value cf r =
      some (injuryMap (value * (if cf then 2 else 1)) r.stream r.cursor survivors,
        ⟨r.stream, r.cursor + survivors.length⟩) ∧
    ∀ i : Nat,
      (injuryMap (value * (if cf then 2 else 1)) r.stream r.cursor survivors)[i]? =
        (survivors[i]?).map (fun s =>
          if ((r.stream (r.cursor + i) % 100 + 1 : Nat) : ℚ) ≤
              value * (if cf then 2 else 1) then
            { s with is_injured := true }
          else s) := by
  have h0 : (0 : ℚ) ≤ value * (if cf then 2 else 1) := by
    cases cf <;> simp <;> positivity
  constructor
  · have hv : value > 0 := hpos
    simp only [applyInjury, if_pos hv]
    exact applyInjuryGo_eq _ h0 hcap survivors r
  · intro i
    exact injuryMap_getElem _ _ survivors r.cursor i

/-- Witness for the amended injury theorem: one participant, value 40,
critical failure (doubled to 80 ≤ 100), zero roll stream — the check
passes and the participant comes back flagged injured. -/
theorem injury_chance_amended_witness :
    applyInjury [scenarioSurvivor] 40 true ⟨fun _ => 0, 0⟩ =
      some (injuryMap ((40 : ℚ) * (if true then 2 else 1)) (fun _ => 0) 0
        [scenarioSurvivor], ⟨fun _ => 0, 0 + 1⟩) ∧
    ∀ i : Nat,
      (injuryMap ((40 : ℚ) * (if true then 2 else 1)) (fun _ => 0) 0
        [scenarioSurvivor])[i]? =
        ([scenarioSurvivor][i]?).map (fun s =>
          if (((fun (_ : Nat) => 0) (0 + i) % 100 + 1 : Nat) : ℚ) ≤
              (40 : ℚ) * (if true then 2 else 1) then
            { s with is_injured := true }
          else s) :=
  injury_chance_amended [scenarioSurvivor] 40 true ⟨fun _ => 0, 0⟩
    (by norm_num) (by norm_num)

/-! ## Combat termination and outcome flags -/

theorem chanceCheck_eq_some {p : ℚ} (h0 : 0 ≤ p) (h100 : p ≤ 100) (r : Rng) :
    chanceCheck p r =
      some (decide (((r.stream r.cursor % 100 + 1 : Nat) : ℚ) ≤ p),
        ⟨r.stream, r.cursor + 1⟩) := by
  simp [chanceCheck, rollD100, Rng.next, h0, h100]

theorem attackStepS_some (env : EnvMods) (st : List ZombieC × Rng)
    (a : SurvivorC) : ∃ st', attackStepS env st a = some st' := by
  by_cases h : a.is_alive = false ∨ st.1 = []
  · exact ⟨(st.1, st.2), by simp [attackStepS, h]⟩
  · simp only [attackStepS, dif_neg h]
    have hb : ∀ t : ZombieC, 0 ≤ calculateSurvivorHitChance a t env ∧
        calculateSurvivorHitChance a t env ≤ 100 := fun t => clamp_bounds _
    rw [chanceCheck_eq_some (hb _).1 (hb _).2]
    dsimp only
    split
    · rw [chanceCheck_eq_some (by norm_num) (by norm_num)]
      dsimp only
      exact ⟨_, rfl⟩
    · exact ⟨_, rfl⟩

theorem attackStepZ_some (env : EnvMods) (st : List SurvivorC × Rng)
    (z : ZombieC) : ∃ st', attackStepZ env st z = some st' := by
  by_cases h : z.is_alive = false ∨ st.1 = []
  · exact ⟨(st.1, st.2), by simp [attackStepZ, h]⟩
  · simp only [attackStepZ, dif_neg h]
    have hb : ∀ t : SurvivorC, 0 ≤ calculateZombieHitChance z t env ∧
        calculateZombieHitChance z t env ≤ 100 := fun t => clamp_bounds _
    rw [chanceCheck_eq_some (hb _).1 (hb _).2]
    dsimp only
    split
    · rw [chanceCheck_eq_some (by norm_num) (by norm_num)]
      dsimp only
      exact ⟨_, rfl⟩
    · exact ⟨_, rfl⟩

theorem runPhaseS_some (env : EnvMods) :
    ∀ (attackers : List SurvivorC) (st : List ZombieC × Rng),
      ∃ st', runPhaseS env attackers st = some st' := by
  intro attackers
  induction attackers with
  | nil => intro st; exact ⟨st, rfl⟩
  | cons a rest ih =>
    intro st
    obtain ⟨st1, h1⟩ := attackStepS_some env st a
    obtain ⟨st2, h2⟩ := ih st1
    exact ⟨st2, by simp [runPhaseS, h1, h2]⟩

theorem runPhaseZ_some (env : EnvMods) :
    ∀ (attackers : List ZombieC) (st : List SurvivorC × Rng),
      ∃ st', runPhaseZ env attackers st = some st' := by
  intro attackers
  induction attackers with
  | nil => intro st; exact ⟨st, rfl⟩
  | cons z rest ih =>
    intro st
    obtain ⟨st1, h1⟩ := attackStepZ_some env st z
    obtain ⟨st2, h2⟩ := ih st1
    exact ⟨st2, by simp [runPhaseZ, h1, h2]⟩

theorem shuffleAux_length {α : Type} :
    ∀ (fuel : Nat) (l : List α) (r : Rng), l.length ≤ fuel →
      (shuffleAux fuel l r).1.length = l.length := by
  intro fuel
  induction fuel with
  | zero => intro l r _; rfl
  | succ n ih =>
    intro l r h
    by_cases hl : l.length = 0
    · simp [shuffleAux, hl]
    · simp only [shuffleAux, dif_neg hl, List.length_cons]
      have hpos : 0 < l.length := Nat.pos_of_ne_zero hl
      have hi : (Rng.next r).1 % l.length < l.length := Nat.mod_lt _ hpos
      have hlen : (l.eraseIdx ((Rng.next r).1 % l.length)).length =
          l.length - 1 := by
        rw [List.length_eraseIdx_of_lt hi]
      rw [ih _ _ (by omega), hlen]
      omega

theorem shuffleList_length {α : Type} (l : List α) (r : Rng) :
    (shuffleList l r).1.length = l.length :=
  shuffleAux_length l.length l r le_rfl

theorem survivorPhase_spec (env : EnvMods) (ss : List SurvivorC)
    (zs : List ZombieC) (r : Rng) :
    ∃ out : List SurvivorC × List ZombieC × Rng,
      survivorPhase env ss zs r = some out ∧ out.1.length = ss.length := by
  obtain ⟨st', hst⟩ :=
    runPhaseS_some env (shuffleList ss r).1 (zs, (shuffleList ss r).2)
  exact ⟨((shuffleList ss r).1, st'.1, st'.2),
    by simp [survivorPhase, hst], shuffleList_length ss r⟩

theorem zombiePhase_spec (env : EnvMods) (ss : List SurvivorC)
    (zs : List ZombieC) (r : Rng) :
    ∃ out : List SurvivorC × List ZombieC × Rng,
      zombiePhase env ss zs r = some out ∧ out.2.1.length = zs.length := by
  obtain ⟨st', hst⟩ :=
    runPhaseZ_some env (shuffleList zs r).1 (ss, (shuffleList zs r).2)
  exact ⟨(st'.1, (shuffleList zs r).1, st'.2),
    by simp [zombiePhase, hst], shuffleList_length zs r⟩

/-- Loop invariant: with enough fuel the loop returns, the round counter
stays at most 100 (starting ≤ 100), the returned state satisfies the
loop's exit condition, and a state where not both rosters are empty can
never turn into one where both are. -/
theorem combatLoop_spec (env : EnvMods) :
    ∀ (fuel combat_round : Nat) (ss : List SurvivorC) (zs : List ZombieC)
      (r : Rng), 100 ≤ combat_round + fuel →
      ∃ ss' zs' round' r',
        combatLoop env fuel combat_round ss zs r = some (ss', zs', round', r') ∧
        round' ≤ max combat_round 100 ∧
        (ss' = [] ∨ zs' = [] ∨ 100 ≤ round') ∧
        (¬(ss = [] ∧ zs = []) → ¬(ss' = [] ∧ zs' = [])) := by
  intro fuel
  induction fuel with
  | zero =>
    intro combat_round ss zs r hfuel
    have hround : ¬ combat_round < 100 := by omega
    refine ⟨ss, zs, combat_round, r, ?_, le_max_left _ _, Or.inr (Or.inr (by omega)),
      fun hne => hne⟩
    rw [combatLoop, if_pos (Or.inr (Or.inr hround))]
  | succ n ih =>
    intro combat_round ss zs r hfuel
    by_cases hcond : ss = [] ∨ zs = [] ∨ ¬ combat_round < 100
    · refine ⟨ss, zs, combat_round, r, ?_, le_max_left _ _, ?_, fun hne => hne⟩
      · rw [combatLoop, if_pos hcond]
      · rcases hcond with h | h | h
        · exact Or.inl h
        · exact Or.inr (Or.inl h)
        · exact Or.inr (Or.inr (by omega))
    · push_neg at hcond
      obtain ⟨hss, hzs, hround⟩ := hcond
      obtain ⟨⟨ss1, zs1, r1⟩, hphase1, hlen1⟩ := survivorPhase_spec env ss zs r
      have hss1 : ss1 ≠ [] := by
        intro he
        rw [he] at hlen1
        exact hss (List.eq_nil_of_length_eq_zero hlen1.symm)
      by_cases hz1 : zs1 = []
      · refine ⟨ss1, zs1, combat_round + 1, r1, ?_, by omega,
          Or.inr (Or.inl hz1), fun _ hb => hss1 hb.1⟩
        rw [combatLoop,
          if_neg (by push_neg; exact ⟨hss, hzs, hround⟩), hphase1]
        simp [hz1]
      · obtain ⟨⟨ss2, zs2, r2⟩, hphase2, hlen2⟩ :=
          zombiePhase_spec env ss1 zs1 r1
        have hzs2 : zs2 ≠ [] := by
          intro he
          rw [he] at hlen2
          exact hz1 (List.eq_nil_of_length_eq_zero hlen2.symm)
        by_cases hs2 : ss2 = []
        · refine ⟨ss2, zs2, combat_round + 1, r2, ?_, by omega,
            Or.inl hs2, fun _ hb => hzs2 hb.2⟩
          rw [combatLoop,
            if_neg (by push_neg; exact ⟨hss, hzs, hround⟩), hphase1]
          simp only [hz1, if_neg, hphase2]
          simp [hs2]
        · obtain ⟨ss', zs', round', r', heq, hle, hexit, hpres⟩ :=
            ih (combat_round + 1) ss2 zs2 r2 (by omega)
          refine ⟨ss', zs', round', r', ?_, by omega, hexit,
            fun _ => hpres (fun hb => hs2 hb.1)⟩
          rw [combatLoop,
            if_neg (by push_neg; exact ⟨hss, hzs, hround⟩), hphase1]
          simp only [hz1, if_neg, hphase2]
          rw [if_neg hs2]
          exact heq

/-- C2 as amended: for every pair of input rosters, every environment,
danger level and random stream, resolve_combat returns a summary after at
most 100 rounds and its three outcome flags are pairwise mutually
exclusive; moreover at least (hence exactly) one of the three flags is
true whenever at least one side starts with a living member — when both
rosters start with no living member, all three flags are false. -/
theorem combat_terminates_flags (survivors : List SurvivorC)
    (zombies : List ZombieC) (env : EnvMods) (node_danger : Int) (r : Rng) :
    ∃ s : CombatSummary,
      resolveCombat survivors zombies env node_danger r = some s ∧
      s.total_rounds ≤ 100 ∧
      ¬(s.victory = true ∧ s.defeat = true) ∧
      ¬(s.victory = true ∧ s.stalemate = true) ∧
      ¬(s.defeat = true ∧ s.stalemate = true) ∧
      ((survivors.filter (fun x => x.is_alive) ≠ [] ∨
        zombies.filter (fun x => x.is_alive) ≠ []) →
        (s.victory = true ∨ s.defeat = true ∨ s.stalemate = true)) := by
  obtain ⟨ss', zs', round', r', heq, hle, hexit, hpres⟩ :=
    combatLoop_spec env 100 0 (survivors.filter fun s => s.is_alive)
      ((zombies.filter fun z => z.is_alive).map (dangerScaledZombie node_danger))
      r (by omega)
  have hr : resolveCombat survivors zombies env node_danger r =
      some { survivors_remaining := ss'.length, zombies_remaining := zs'.length,
             total_rounds := round',
             victory := decide (ss'.length > 0 ∧ zs'.length = 0),
             defeat := decide (ss'.length = 0 ∧ zs'.length > 0),
             stalemate := decide (ss'.length > 0 ∧ zs'.length > 0 ∧
               round' ≥ 100) } := by
    simp only [resolveCombat, heq]
  refine ⟨_, hr, ?_, ?_, ?_, ?_, ?_⟩
  · simpa using hle
  · intro hc
    obtain ⟨h1, h2⟩ := hc
    simp only [decide_eq_true_eq] at h1 h2
    omega
  · intro hc
    obtain ⟨h1, h2⟩ := hc
    simp only [decide_eq_true_eq] at h1 h2
    omega
  · intro hc
    obtain ⟨h1, h2⟩ := hc
    simp only [decide_eq_true_eq] at h1 h2
    omega
  · intro hne
    have hneb : ¬((survivors.filter fun x => x.is_alive) = [] ∧
        ((zombies.filter fun x => x.is_alive).map
          (dangerScaledZombie node_danger)) = []) := by
      intro hb
      rcases hne with hh | hh
      · exact hh hb.1
      · exact hh (by simpa [List.map_eq_nil_iff] using hb.2)
    have hpres' := hpres hneb
    by_cases hss : ss' = []
    · have hzs : zs' ≠ [] := fun hz => hpres' ⟨hss, hz⟩
      right; left
      simp [hss, List.length_pos.mpr hzs]
    · by_cases hzs : zs' = []
      · left
        simp [hzs, List.length_pos.mpr hss]
      · right; right
        have hr100 : 100 ≤ round' := by
          rcases hexit with h | h | h
          · exact absurd h hss
          · exact absurd h hzs
          · exact h
        simp [List.length_pos.mpr hss, List.length_pos.mpr hzs, hr100]

/-- C2 counterexample: with both input rosters empty (lists of survivors
and zombies in "any health state" include this one), resolve_combat
returns a summary in which victory, defeat and stalemate are all false —
so "exactly one of them is true" fails as stated. -/
theorem combat_empty_counterexample :
    resolveCombat [] [] [] 1 ⟨fun _ => 0, 0⟩ =
      some { survivors_remaining := 0, zombies_remaining := 0,
             total_rounds := 0, victory := false, defeat := false,
             stalemate := false } := by
  rfl

/-- Witness for the amended combat theorem: one living survivor against
no zombies; the inner living-roster hypothesis is discharged concretely
and exactly one flag (victory) must be true. -/
theorem combat_terminates_flags_witness :
    ∃ s : CombatSummary,
      resolveCombat [scenarioSurvivor] [] [] 1 ⟨fun _ => 0, 0⟩ = some s ∧
      s.total_rounds ≤ 100 ∧
      (s.victory = true ∨ s.defeat = true ∨ s.stalemate = true) := by
  obtain ⟨s, hr, hle, _, _, _, hone⟩ :=
    combat_terminates_flags [scenarioSurvivor] [] [] 1 ⟨fun _ => 0, 0⟩
  exact ⟨s, hr, hle, hone (Or.inl (by simp [scenarioSurvivor, mkSurvivor]))⟩

end MobileApoc
